import Mathlib

/-
Verification of the taurien-bot order-orchestration core.

The development shallowly embeds the calendar cadence logic of main.py
(should_send_reminder_today, get_next_reminder_date), the availability
resolver of c7_actions/daily_menu_available.py (find_daily_menu_link,
check_form_availability, check_daily_menu_available), the offering
scraper of c7_actions/scrap_menu_options.py (scrape_menu_options), and
the submitter of c7_actions/fill_form.py (click_menu_option,
fill_c7_form).  Python dates are modelled as proleptic Gregorian
year/month/day triples with weekday 0 = Monday, matching datetime.
-/

namespace Taurien

/-- Leap-year rule of the Gregorian calendar, as used by Python datetime. -/
def isLeap (y : Nat) : Bool := (y % 4 == 0 && y % 100 != 0) || (y % 400 == 0)

/-- Number of days in a month of a given year. -/
def daysInMonth (y m : Nat) : Nat :=
  if m = 2 then (if isLeap y then 29 else 28)
  else if m = 4 ∨ m = 6 ∨ m = 9 ∨ m = 11 then 30
  else 31

/-- Cumulative day counts before each month of a non-leap year, indexed by
month number, as in the table used internally by Python's datetime module. -/
def daysBeforeMonthTable : List Nat :=
  [0, 0, 31, 59, 90, 120, 151, 181, 212, 243, 273, 304, 334]

/-- Days of year y that lie strictly before month m (months counted from 1). -/
def daysBeforeMonth (y m : Nat) : Nat :=
  daysBeforeMonthTable.getD m 0 + (if 3 ≤ m ∧ isLeap y = true then 1 else 0)

/-- Days strictly before January 1 of year y, counting from year 1. -/
def daysBeforeYear (y : Nat) : Nat :=
  365 * (y - 1) + (y - 1) / 4 - (y - 1) / 100 + (y - 1) / 400

/-- Calendar date, mirroring the date component of a Python datetime. -/
structure Date where
  year : Nat
  month : Nat
  day : Nat
deriving DecidableEq, Repr

/-- Validity of a Gregorian date. -/
def Date.Valid (d : Date) : Prop :=
  1 ≤ d.year ∧ 1 ≤ d.month ∧ d.month ≤ 12 ∧ 1 ≤ d.day ∧ d.day ≤ daysInMonth d.year d.month

instance (d : Date) : Decidable d.Valid := by
  unfold Date.Valid; infer_instance

/-- Days elapsed since January 1 of year 1 (that date maps to 0). -/
def toDays (d : Date) : Nat :=
  daysBeforeYear d.year + daysBeforeMonth d.year d.month + (d.day - 1)

/-- Weekday with Monday = 0 ... Sunday = 6, as Python's date.weekday(). -/
def Date.weekday (d : Date) : Nat := toDays d % 7

/-- Successor date, mirroring datetime + timedelta(days=1). -/
def nextDay (d : Date) : Date :=
  if d.day < daysInMonth d.year d.month then ⟨d.year, d.month, d.day + 1⟩
  else if d.month < 12 then ⟨d.year, d.month + 1, 1⟩
  else ⟨d.year + 1, 1, 1⟩

/-- Date shifted forward by n days. -/
def addDays (d : Date) : Nat → Date
  | 0 => d
  | n + 1 => nextDay (addDays d n)

/-- Time-of-day component of a Python datetime. -/
structure TimeOfDay where
  hour : Nat
  minute : Nat
  second : Nat
  microsecond : Nat
deriving DecidableEq, Repr

/-- Datetime, as used by main.py (timezone is irrelevant to the claims). -/
structure DateTime where
  date : Date
  time : TimeOfDay
deriving DecidableEq, Repr

/-- Week-of-month computation of main.py lines 72-76: the first day of the
month is obtained with target_date.replace(day=1), and the 1-based week index
is ((days_into_month - 1 + first_day.weekday()) // 7) + 1. -/
def week_of_month (d : Date) : Nat :=
  ((d.day - 1 + Date.weekday ⟨d.year, d.month, 1⟩) / 7) + 1

/-- Embedding of should_send_reminder_today (main.py lines 51-86): Monday
through Friday during the third week of the month, Monday through Wednesday
otherwise. -/
def should_send_reminder_today (d : Date) : Bool :=
  if week_of_month d = 3 then d.weekday ≤ 4 else d.weekday ≤ 2

/-- Embedding of the scan loop of get_next_reminder_date (main.py lines
104-118).  With fuel 0 the defensive fallback runs: it jumps to the next
Monday strictly after the scan window, mirroring (0 - weekday) % 7 with the
zero case mapped to 7. -/
def reminderScan : Nat → DateTime → DateTime
  | 0, check =>
      let da0 := (7 - (Date.weekday check.date)) % 7
      let da := if da0 = 0 then 7 else da0
      ⟨addDays check.date da, ⟨7, 30, 0, 0⟩⟩
  | n + 1, check =>
      if should_send_reminder_today check.date
      then ⟨check.date, ⟨7, 30, 0, 0⟩⟩
      else reminderScan n ⟨nextDay check.date, check.time⟩

/-- Embedding of get_next_reminder_date (main.py lines 89-118): start at
current_date + 1 day and scan at most 7 consecutive days. -/
def get_next_reminder_date (current : DateTime) : DateTime :=
  reminderScan 7 ⟨nextDay current.date, current.time⟩

/- ### Calendar lemmas -/

lemma daysInMonth_ge (y m : Nat) : 28 ≤ daysInMonth y m := by
  unfold daysInMonth; split_ifs <;> omega

lemma weekday_lt (d : Date) : d.weekday < 7 :=
  Nat.mod_lt _ (by omega)

lemma daysBeforeMonth_succ (y m : Nat) (h1 : 1 ≤ m) (h2 : m ≤ 11) :
    daysBeforeMonth y (m + 1) = daysBeforeMonth y m + daysInMonth y m := by
  interval_cases m <;>
    cases hl : isLeap y <;>
      simp [daysBeforeMonth, daysBeforeMonthTable, daysInMonth, hl]

lemma isLeap_iff (y : Nat) : isLeap y = true ↔ (y % 4 = 0 ∧ y % 100 ≠ 0) ∨ y % 400 = 0 := by
  simp [isLeap]

lemma daysInMonth_twelve (y : Nat) : daysInMonth y 12 = 31 := by
  norm_num [daysInMonth]

lemma daysBeforeMonth_dec (y : Nat) :
    daysBeforeMonth y 12 = 334 + (if isLeap y = true then 1 else 0) := by
  cases hl : isLeap y <;>
    simp [daysBeforeMonth, daysBeforeMonthTable, hl]

lemma daysBeforeYear_succ (z : Nat) :
    daysBeforeYear (z + 1 + 1) =
      daysBeforeYear (z + 1) + 365 + (if isLeap (z + 1) = true then 1 else 0) := by
  unfold daysBeforeYear
  have e1 : z + 1 + 1 - 1 = z + 1 := by omega
  have e2 : z + 1 - 1 = z := by omega
  rw [e1, e2]
  have h4 : (z + 1) / 4 = z / 4 + if 4 ∣ z + 1 then 1 else 0 := Nat.succ_div z 4
  have h100 : (z + 1) / 100 = z / 100 + if 100 ∣ z + 1 then 1 else 0 := Nat.succ_div z 100
  have h400 : (z + 1) / 400 = z / 400 + if 400 ∣ z + 1 then 1 else 0 := Nat.succ_div z 400
  have hle1 : z / 100 ≤ z / 4 := Nat.div_le_div_left (by omega) (by omega)
  have hle2 : z / 400 ≤ z / 100 := Nat.div_le_div_left (by omega) (by omega)
  by_cases hl : isLeap (z + 1) = true
  · have hmod := (isLeap_iff (z + 1)).mp hl
    simp only [if_pos hl]
    by_cases d4 : 4 ∣ z + 1 <;> by_cases d100 : 100 ∣ z + 1 <;> by_cases d400 : 400 ∣ z + 1 <;>
      simp only [d4, d100, d400, if_true, if_false, iff_true, iff_false] at h4 h100 h400 <;>
      omega
  · have hmod : ¬ (((z + 1) % 4 = 0 ∧ (z + 1) % 100 ≠ 0) ∨ (z + 1) % 400 = 0) := by
      rw [← isLeap_iff]; simp [hl]
    simp only [if_neg hl]
    by_cases d4 : 4 ∣ z + 1 <;> by_cases d100 : 100 ∣ z + 1 <;> by_cases d400 : 400 ∣ z + 1 <;>
      simp only [d4, d100, d400, if_true, if_false, iff_true, iff_false] at h4 h100 h400 <;>
      omega

lemma toDays_nextDay (d : Date) (h : d.Valid) : toDays (nextDay d) = toDays d + 1 := by
  obtain ⟨yy, mm, dd⟩ := d
  obtain ⟨hy, hm1, hm2, hd1, hd2⟩ := h
  dsimp only at hy hm1 hm2 hd1 hd2
  unfold nextDay
  dsimp only
  split_ifs with h1 h2
  · simp only [toDays]; omega
  · have hs := daysBeforeMonth_succ yy mm hm1 (by omega)
    have h28 := daysInMonth_ge yy mm
    simp only [toDays]; omega
  · have hmm : mm = 12 := by omega
    subst hmm
    have h31 := daysInMonth_twelve yy
    have hdd : dd = 31 := by omega
    subst hdd
    obtain ⟨z, rfl⟩ : ∃ z, yy = z + 1 := ⟨yy - 1, by omega⟩
    have h12 := daysBeforeMonth_dec (z + 1)
    simp only [toDays]
    have h0 : daysBeforeMonth (z + 1 + 1) 1 = 0 := rfl
    rw [h0, h12]
    have hy2 := daysBeforeYear_succ z
    by_cases hl : isLeap (z + 1) = true
    · simp only [if_pos hl] at hy2 ⊢
      omega
    · simp only [if_neg hl] at hy2 ⊢
      omega

lemma valid_nextDay (d : Date) (h : d.Valid) : (nextDay d).Valid := by
  obtain ⟨yy, mm, dd⟩ := d
  obtain ⟨hy, hm1, hm2, hd1, hd2⟩ := h
  dsimp only at hy hm1 hm2 hd1 hd2
  unfold nextDay
  dsimp only
  split_ifs with h1 h2
  · have h28 := daysInMonth_ge yy mm
    exact ⟨hy, hm1, hm2, by dsimp only; omega, by dsimp only; omega⟩
  · have h28 := daysInMonth_ge yy (mm + 1)
    exact ⟨hy, by dsimp only; omega, by dsimp only; omega, by dsimp only; omega,
      by dsimp only; omega⟩
  · have h28 := daysInMonth_ge (yy + 1) 1
    exact ⟨by dsimp only; omega, by dsimp only; omega, by dsimp only; omega,
      by dsimp only; omega, by dsimp only; omega⟩

lemma valid_addDays (d : Date) (h : d.Valid) (n : Nat) : (addDays d n).Valid := by
  induction n with
  | zero => exact h
  | succ n ih => exact valid_nextDay _ ih

lemma toDays_addDays (d : Date) (h : d.Valid) (n : Nat) : toDays (addDays d n) = toDays d + n := by
  induction n with
  | zero => rfl
  | succ n ih =>
    have := toDays_nextDay (addDays d n) (valid_addDays d h n)
    simp only [addDays]
    omega

lemma addDays_succ_left (d : Date) (k : Nat) : addDays d (k + 1) = addDays (nextDay d) k := by
  induction k with
  | zero => rfl
  | succ k ih =>
    show nextDay (addDays d (k + 1)) = nextDay (addDays (nextDay d) k)
    rw [ih]

lemma monday_qualifies (d : Date) (h : d.weekday = 0) :
    should_send_reminder_today d = true := by
  unfold should_send_reminder_today
  rw [h]
  split_ifs <;> decide

lemma exists_qualifying (d : Date) (h : d.Valid) :
    ∃ k, k < 7 ∧ should_send_reminder_today (addDays (nextDay d) k) = true := by
  have hv1 : (nextDay d).Valid := valid_nextDay d h
  refine ⟨6 - toDays d % 7, by omega, ?_⟩
  apply monday_qualifies
  show toDays (addDays (nextDay d) (6 - toDays d % 7)) % 7 = 0
  rw [toDays_addDays _ hv1, toDays_nextDay d h]
  omega

lemma reminderScan_spec (n : Nat) (check : DateTime)
    (h : ∃ k, k < n ∧ should_send_reminder_today (addDays check.date k) = true) :
    ∃ k, k < n ∧ should_send_reminder_today (addDays check.date k) = true ∧
      (∀ j, j < k → should_send_reminder_today (addDays check.date j) = false) ∧
      reminderScan n check = ⟨addDays check.date k, ⟨7, 30, 0, 0⟩⟩ := by
  induction n generalizing check with
  | zero => obtain ⟨k, hk, _⟩ := h; omega
  | succ n ih =>
    by_cases hq : should_send_reminder_today check.date = true
    · refine ⟨0, by omega, hq, by omega, ?_⟩
      unfold reminderScan
      rw [if_pos hq]
      rfl
    · obtain ⟨k, hk, hkq⟩ := h
      have hk0 : k ≠ 0 := by
        intro h0; subst h0; exact hq hkq
      obtain ⟨k1, rfl⟩ : ∃ k1, k = k1 + 1 := ⟨k - 1, by omega⟩
      have hnext : ∃ j, j < n ∧
          should_send_reminder_today (addDays (nextDay check.date) j) = true := by
        refine ⟨k1, by omega, ?_⟩
        rw [← addDays_succ_left]
        exact hkq
      obtain ⟨j, hj, hjq, hjmin, hj_eq⟩ := ih ⟨nextDay check.date, check.time⟩ hnext
      refine ⟨j + 1, by omega, ?_, ?_, ?_⟩
      · rw [addDays_succ_left]; exact hjq
      · intro i hi
        cases i with
        | zero => simpa using hq
        | succ i =>
          rw [addDays_succ_left]
          exact hjmin i (by omega)
      · unfold reminderScan
        rw [if_neg hq, hj_eq, addDays_succ_left]

/- ### Claim C1 -/

/-- C1: should_send_reminder_today computes week-of-month as
((dayOfMonth - 1 + weekday of the first of the month) / 7) + 1 with integer
division and Monday = 0, returns true exactly when the weekday is among
Monday..Friday in the third week and among Monday..Wednesday otherwise, and
in particular a Thursday qualifies exactly when it falls in the third week. -/
theorem c1_qualifies_weekly_rule (d : Date) :
    (should_send_reminder_today d = true ↔
      (if ((d.day - 1 + Date.weekday ⟨d.year, d.month, 1⟩) / 7) + 1 = 3
        then d.weekday ∈ [0, 1, 2, 3, 4]
        else d.weekday ∈ [0, 1, 2]))
    ∧ (d.weekday = 3 →
        (should_send_reminder_today d = true ↔ week_of_month d = 3)) := by
  constructor
  · unfold should_send_reminder_today week_of_month
    split_ifs with h3 <;>
      simp only [decide_eq_true_eq, List.mem_cons, List.mem_singleton,
        List.not_mem_nil, or_false] <;> omega
  · intro h3
    unfold should_send_reminder_today
    rw [h3]
    split_ifs with h <;> simp [h]

/-- Witness for C1 at the concrete Thursday 2025-10-16, which lies in the
third week of October 2025 and therefore qualifies. -/
theorem c1_qualifies_weekly_rule_witness :
    Date.weekday ⟨2025, 10, 16⟩ = 3 ∧
      (should_send_reminder_today ⟨2025, 10, 16⟩ = true ↔
        week_of_month ⟨2025, 10, 16⟩ = 3) :=
  ⟨by decide, (c1_qualifies_weekly_rule ⟨2025, 10, 16⟩).2 (by decide)⟩

/- ### Claim C9 -/

/-- C9: in every month the days whose week-of-month is 3 form exactly one
window of 7 consecutive days fully inside the month, and
should_send_reminder_today depends only on the weekday and the week-of-month
of its input. -/
theorem c9_special_window_and_determinism (y m : Nat) (hm1 : 1 ≤ m) (hm2 : m ≤ 12) :
    (∃ a, 1 ≤ a ∧ a + 6 ≤ daysInMonth y m ∧
      ∀ day : Nat, 1 ≤ day →
        (week_of_month ⟨y, m, day⟩ = 3 ↔ (a ≤ day ∧ day ≤ a + 6)))
    ∧ (∀ d1 d2 : Date, d1.weekday = d2.weekday →
        week_of_month d1 = week_of_month d2 →
        should_send_reminder_today d1 = should_send_reminder_today d2) := by
  constructor
  · have hw : Date.weekday ⟨y, m, 1⟩ < 7 := weekday_lt _
    have h28 := daysInMonth_ge y m
    refine ⟨15 - Date.weekday ⟨y, m, 1⟩, by omega, by omega, ?_⟩
    intro day hday
    unfold week_of_month
    simp only []
    omega
  · intro d1 d2 hw hm
    unfold should_send_reminder_today
    rw [hw, hm]

/-- Witness for C9 at October 2025. -/
theorem c9_special_window_and_determinism_witness :
    (∃ a, 1 ≤ a ∧ a + 6 ≤ daysInMonth 2025 10 ∧
      ∀ day : Nat, 1 ≤ day →
        (week_of_month ⟨2025, 10, day⟩ = 3 ↔ (a ≤ day ∧ day ≤ a + 6)))
    ∧ (∀ d1 d2 : Date, d1.weekday = d2.weekday →
        week_of_month d1 = week_of_month d2 →
        should_send_reminder_today d1 = should_send_reminder_today d2) :=
  c9_special_window_and_determinism 2025 10 (by decide) (by decide)

/- ### Claim C2 -/

/-- C2: get_next_reminder_date starts scanning at the day after its input,
returns the first qualifying date, and that date is strictly after the
input, at most 7 days after it, and qualifies. -/
theorem c2_next_reminder_within_week (dt : DateTime) (hv : dt.date.Valid) :
    ∃ k, 1 ≤ k ∧ k ≤ 7 ∧
      (get_next_reminder_date dt).date = addDays dt.date k ∧
      should_send_reminder_today (addDays dt.date k) = true ∧
      (∀ j, 1 ≤ j → j < k → should_send_reminder_today (addDays dt.date j) = false) ∧
      toDays dt.date < toDays (get_next_reminder_date dt).date ∧
      toDays (get_next_reminder_date dt).date ≤ toDays dt.date + 7 := by
  obtain ⟨k0, hk0, hq0⟩ := exists_qualifying dt.date hv
  obtain ⟨k, hk, hkq, hkmin, hkeq⟩ :=
    reminderScan_spec 7 ⟨nextDay dt.date, dt.time⟩ ⟨k0, by omega, hq0⟩
  simp only at hkq hkmin hkeq
  have hdate : (get_next_reminder_date dt).date = addDays dt.date (k + 1) := by
    unfold get_next_reminder_date
    rw [hkeq, addDays_succ_left]
  refine ⟨k + 1, by omega, by omega, hdate, ?_, ?_, ?_, ?_⟩
  · rw [addDays_succ_left]; exact hkq
  · intro j hj1 hjk
    obtain ⟨j1, rfl⟩ : ∃ j1, j = j1 + 1 := ⟨j - 1, by omega⟩
    rw [addDays_succ_left]
    exact hkmin j1 (by omega)
  · rw [hdate, toDays_addDays dt.date hv]; omega
  · rw [hdate, toDays_addDays dt.date hv]; omega

/-- Witness for C2 at Sunday 2025-10-12: the next reminder date exists
within the following 7 days. -/
theorem c2_next_reminder_within_week_witness :
    Date.Valid ⟨2025, 10, 12⟩ ∧
      ∃ k, 1 ≤ k ∧ k ≤ 7 ∧
        (get_next_reminder_date ⟨⟨2025, 10, 12⟩, ⟨18, 4, 5, 6⟩⟩).date =
          addDays ⟨2025, 10, 12⟩ k ∧
        should_send_reminder_today (addDays ⟨2025, 10, 12⟩ k) = true ∧
        (∀ j, 1 ≤ j → j < k →
          should_send_reminder_today (addDays ⟨2025, 10, 12⟩ j) = false) ∧
        toDays ⟨2025, 10, 12⟩ <
          toDays (get_next_reminder_date ⟨⟨2025, 10, 12⟩, ⟨18, 4, 5, 6⟩⟩).date ∧
        toDays (get_next_reminder_date ⟨⟨2025, 10, 12⟩, ⟨18, 4, 5, 6⟩⟩).date ≤
          toDays ⟨2025, 10, 12⟩ + 7 :=
  ⟨by decide, c2_next_reminder_within_week ⟨⟨2025, 10, 12⟩, ⟨18, 4, 5, 6⟩⟩ (by decide)⟩

/- ### Claim C10 -/

lemma reminderScan_time (n : Nat) (check : DateTime) :
    (reminderScan n check).time = ⟨7, 30, 0, 0⟩ := by
  induction n generalizing check with
  | zero => rfl
  | succ n ih =>
    unfold reminderScan
    split_ifs
    · rfl
    · exact ih _

/-- C10: the datetime returned by get_next_reminder_date always has its
time-of-day normalized to 7:30:00.000000, on the scan exit as well as on the
defensive fallback exit, regardless of the input's time-of-day. -/
theorem c10_result_time_is_730 (dt : DateTime) :
    (get_next_reminder_date dt).time = ⟨7, 30, 0, 0⟩ :=
  reminderScan_time 7 _

/- ### String primitives

Python string operations are modelled on the character lists underlying
Lean strings, so that they compute by kernel reduction.  Lowercasing is the
ASCII lowering of Char.toLower; the pages and phrases compared by the
resolver are lowercase except for ASCII letters, so this matches Python's
str.lower on all inputs considered. -/

/-- Python str.lower, character by character. -/
def strLower (s : String) : String := ⟨s.data.map Char.toLower⟩

/-- Boolean prefix test on character lists. -/
def startsWithCL : List Char → List Char → Bool
  | [], _ => true
  | _ :: _, [] => false
  | a :: as, b :: bs => a == b && startsWithCL as bs

/-- Boolean contiguous-substring test on character lists. -/
def containsCL (p : List Char) (l : List Char) : Bool :=
  match l with
  | [] => p.isEmpty
  | c :: rest => startsWithCL p (c :: rest) || containsCL p rest

/-- Python's substring containment test, as in the expression pat in s. -/
def strContains (s pat : String) : Bool := containsCL pat.data s.data

/-- Whitespace test covering the characters occurring in the scraped pages. -/
def isSpaceChar (c : Char) : Bool := c == ' ' || c == '\t' || c == '\n' || c == '\r'

/-- Python str.strip: drop leading and trailing whitespace. -/
def strStrip (s : String) : String :=
  ⟨((s.data.dropWhile isSpaceChar).reverse.dropWhile isSpaceChar).reverse⟩

/- ### HTML model for the resolver -/

/-- Parsed HTML node as exposed by BeautifulSoup: a text node, or an element
with a tag name, attributes and children. -/
inductive Node where
  | text (s : String)
  | elem (tag : String) (attrs : List (String × String)) (children : List Node)
deriving Repr

/-- Attribute lookup, as tag.get(name) in BeautifulSoup. -/
def getAttr : Node → String → Option String
  | .text _, _ => none
  | .elem _ attrs _, k => (attrs.find? (fun p => p.1 == k)).map (·.2)

mutual
/-- Strict descendants of a node in document order, the search space of
BeautifulSoup's find_all and find. -/
def descendants : Node → List Node
  | .text _ => []
  | .elem _ _ cs => descList cs
/-- Descendants of a list of sibling subtrees, in document order. -/
def descList : List Node → List Node
  | [] => []
  | c :: cs => c :: descendants c ++ descList cs
end

mutual
/-- Text-node contents below a node, in document order. -/
def textsOf : Node → List String
  | .text s => [s]
  | .elem _ _ cs => textsList cs
/-- Text-node contents below a list of sibling subtrees. -/
def textsList : List Node → List String
  | [] => []
  | c :: cs => textsOf c ++ textsList cs
end

/-- get_text(strip=True) of BeautifulSoup: every text fragment stripped and
the results concatenated. -/
def getTextStrip (n : Node) : String := String.join ((textsOf n).map strStrip)

/-- get_text() of BeautifulSoup without stripping. -/
def getText (n : Node) : String := String.join (textsOf n)

/-- tag.string of BeautifulSoup: follows unique children down to a text
node; none when a node on the way has zero or several children. -/
def nodeString : Node → Option String
  | .text s => some s
  | .elem _ _ [c] => nodeString c
  | .elem _ _ _ => none

mutual
/-- Text nodes of a subtree paired with their ancestor chains (nearest
parent first), given the chain above the subtree root. -/
def textAnc : Node → List Node → List (String × List Node)
  | .text s, anc => [(s, anc)]
  | .elem t a cs, anc => textAncList cs (Node.elem t a cs :: anc)
/-- Text nodes of sibling subtrees paired with their ancestor chains. -/
def textAncList : List Node → List Node → List (String × List Node)
  | [], _ => []
  | c :: cs, anc => textAnc c anc ++ textAncList cs anc
end

/-- Text nodes of the whole document with their ancestor chains, the search
space of soup.find_all(text=...) followed by .parent walks. -/
def textNodesWithAncestors (soup : Node) : List (String × List Node) :=
  textAnc soup []

/- ### Resolver: daily_menu_available.py -/

/-- Link text searched for by find_daily_menu_link. -/
def targetPhrase : String := "almuerzos del día"

/-- Form-hosting domain every candidate href must point to. -/
def formsDomain : String := "docs.google.com/forms"

/-- Anchor elements carrying an href attribute, the matches of
find_all("a", href=True). -/
def isAnchorWithHref (n : Node) : Bool :=
  match n with
  | .elem "a" _ _ => (getAttr n "href").isSome
  | _ => false

/-- Method 1 of find_daily_menu_link (lines 74-81): any link whose visible
text contains the target phrase case-insensitively, accepted when its href
points to the forms domain. -/
def findLinkMethod1 (soup : Node) : Option String :=
  ((descendants soup).filter isAnchorWithHref).findSome? fun l =>
    if strContains (strLower (getTextStrip l)) targetPhrase then
      match getAttr l "href" with
      | some href => if strContains href formsDomain then some href else none
      | none => none
    else none

/-- Containers matched by find_all("div", data-testid = "Link"). -/
def isLinkContainer (n : Node) : Bool :=
  match n with
  | .elem "div" _ _ => getAttr n "data-testid" == some "Link"
  | _ => false

/-- Divs whose tag.string matches the target phrase regex
(case-insensitive search), as container.find("div", text=regex). -/
def isPhraseDiv (n : Node) : Bool :=
  match n with
  | .elem "div" _ _ =>
    match nodeString n with
    | some s => strContains (strLower s) targetPhrase
    | none => false
  | _ => false

/-- Method 2 of find_daily_menu_link (lines 83-96): data-testid="Link"
containers holding a matching text div and a hyperlink to the forms
domain. -/
def findLinkMethod2 (soup : Node) : Option String :=
  ((descendants soup).filter isLinkContainer).findSome? fun c =>
    match (descendants c).find? isPhraseDiv with
    | some _ =>
      match (descendants c).find? isAnchorWithHref with
      | some a =>
        match getAttr a "href" with
        | some href => if strContains href formsDomain then some href else none
        | none => none
      | none => none
    | none => none

/-- Href of a node when it is an anchor element carrying one, the test
parent.name == "a" and parent.get("href") of method 3.  An empty href is
falsy in Python and cannot contain the forms domain, so treating it like a
present href does not change the walk. -/
def anchorHref : Node → Option String
  | .elem "a" attrs _ => (attrs.find? (fun p => p.1 == "href")).map (·.2)
  | _ => none

/-- Upward ancestor walk of method 3 (lines 101-109): climb parents until a
hyperlink whose href points to the forms domain is found.  An anchor with a
missing or non-matching href does not stop the walk. -/
def walkUp : List Node → Option String
  | [] => none
  | n :: rest =>
    match anchorHref n with
    | some href => if strContains href formsDomain then some href else walkUp rest
    | none => walkUp rest

/-- Method 3 of find_daily_menu_link (lines 98-109): any text node matching
the phrase, resolved through the upward ancestor walk. -/
def findLinkMethod3 (soup : Node) : Option String :=
  (textNodesWithAncestors soup).findSome? fun p =>
    if strContains (strLower p.1) targetPhrase then walkUp p.2 else none

/-- Embedding of find_daily_menu_link (daily_menu_available.py lines
61-111): the three strategies tried in order with early exit. -/
def find_daily_menu_link (soup : Node) : Option String :=
  match findLinkMethod1 soup with
  | some href => some href
  | none =>
    match findLinkMethod2 soup with
    | some href => some href
    | none => findLinkMethod3 soup

/-- Result dictionary of check_form_availability. -/
structure FormStatus where
  accepting_requests : Bool
  message : String
deriving DecidableEq, Repr

/-- Outcome of the secondary fetch of the form URL: the final URL after
redirects and the page's visible text, or the message of the exception
raised by the fetch or parse. -/
inductive FormFetch where
  | ok (finalUrl : String) (pageText : String)
  | err (e : String)

/-- Sold-out phrase list of check_form_availability lines 147-154, in
iteration order. -/
def sold_out_phrases : List String :=
  ["agotados", "se han agotado", "no hay", "sin disponibilidad", "sold out"]

/-- Embedding of check_form_availability (daily_menu_available.py lines
114-176): closed-form redirect, then the case-insensitive sold-out phrase
scan with first match reported, with the fail-open exception handler. -/
def check_form_availability (fetch : FormFetch) : FormStatus :=
  match fetch with
  | .err e => ⟨true, "Could not verify form status: " ++ e⟩
  | .ok finalUrl pageText =>
    if strContains finalUrl "/closedform" then
      ⟨false, "Form redirected to closedform (sold out)"⟩
    else
      match sold_out_phrases.find? (fun p => strContains (strLower pageText) p) with
      | some p => ⟨false, "Form shows sold out content: '" ++ p ++ "' found"⟩
      | none => ⟨true, "Form appears to be accepting requests"⟩

/-- Result dictionary of check_daily_menu_available. -/
structure AvailResult where
  available : Bool
  url : Option String
  error : Option String
deriving DecidableEq, Repr

/-- Outcome of the entry-page fetch: the parsed page, a RequestException
message, or any other exception message. -/
inductive EntryFetch where
  | ok (soup : Node)
  | netErr (e : String)
  | otherErr (e : String)

/-- Embedding of check_daily_menu_available (daily_menu_available.py lines
7-58), parametrized by the two fetch outcomes. -/
def check_daily_menu_available (entry : EntryFetch) (formFetch : FormFetch) : AvailResult :=
  match entry with
  | .netErr e => ⟨false, none, some ("Network error: " ++ e)⟩
  | .otherErr e => ⟨false, none, some ("Unexpected error: " ++ e)⟩
  | .ok soup =>
    match find_daily_menu_link soup with
    | some link =>
      let fs := check_form_availability formFetch
      if fs.accepting_requests then ⟨true, some link, none⟩
      else ⟨false, some link, some ("No more almuerzos available - " ++ fs.message)⟩
    | none => ⟨false, none, some "Daily menu link not found on the page"⟩

/- ### Resolver lemmas -/

lemma findSome_eq_some {α β : Type} (l : List α) (f : α → Option β) (b : β)
    (h : l.findSome? f = some b) : ∃ a ∈ l, f a = some b := by
  induction l with
  | nil => simp [List.findSome?] at h
  | cons x xs ih =>
    rw [List.findSome?] at h
    cases hx : f x with
    | some v =>
      rw [hx] at h
      simp only at h
      exact ⟨x, by simp, by rw [hx, h]⟩
    | none =>
      rw [hx] at h
      simp only at h
      obtain ⟨a, ha, hfa⟩ := ih h
      exact ⟨a, by simp [ha], hfa⟩

lemma method1_domain (soup : Node) (href : String)
    (h : findLinkMethod1 soup = some href) : strContains href formsDomain = true := by
  obtain ⟨a, _, hf⟩ := findSome_eq_some _ _ _ h
  by_cases h1 : strContains (strLower (getTextStrip a)) targetPhrase = true
  · rw [if_pos h1] at hf
    cases hattr : getAttr a "href" with
    | none => simp [hattr] at hf
    | some h2 =>
      simp only [hattr] at hf
      by_cases h3 : strContains h2 formsDomain = true
      · rw [if_pos h3] at hf
        cases hf
        exact h3
      · rw [if_neg h3] at hf; exact absurd hf (by simp)
  · rw [if_neg h1] at hf; exact absurd hf (by simp)

lemma method2_domain (soup : Node) (href : String)
    (h : findLinkMethod2 soup = some href) : strContains href formsDomain = true := by
  obtain ⟨c, _, hf⟩ := findSome_eq_some _ _ _ h
  cases hdiv : (descendants c).find? isPhraseDiv with
  | none => simp [hdiv] at hf
  | some dv =>
    simp only [hdiv] at hf
    cases ha : (descendants c).find? isAnchorWithHref with
    | none => simp [ha] at hf
    | some a =>
      simp only [ha] at hf
      cases hattr : getAttr a "href" with
      | none => simp [hattr] at hf
      | some h2 =>
        simp only [hattr] at hf
        by_cases h3 : strContains h2 formsDomain = true
        · rw [if_pos h3] at hf
          cases hf
          exact h3
        · rw [if_neg h3] at hf; exact absurd hf (by simp)

lemma walkUp_domain (l : List Node) (href : String)
    (h : walkUp l = some href) : strContains href formsDomain = true := by
  induction l with
  | nil => simp [walkUp] at h
  | cons n rest ih =>
    unfold walkUp at h
    cases hattr : anchorHref n with
    | none =>
      simp only [hattr] at h
      exact ih h
    | some h2 =>
      simp only [hattr] at h
      by_cases h3 : strContains h2 formsDomain = true
      · rw [if_pos h3] at h
        cases h
        exact h3
      · rw [if_neg h3] at h
        exact ih h

lemma method3_domain (soup : Node) (href : String)
    (h : findLinkMethod3 soup = some href) : strContains href formsDomain = true := by
  obtain ⟨p, _, hf⟩ := findSome_eq_some _ _ _ h
  by_cases h1 : strContains (strLower p.1) targetPhrase = true
  · rw [if_pos h1] at hf
    exact walkUp_domain _ _ hf
  · rw [if_neg h1] at hf; exact absurd hf (by simp)

/- ### Claim C7 -/

/-- C7: the link search tries the three strategies in order with early
exit, every returned candidate href points to the recognized form-hosting
domain, and when no strategy yields a candidate check_daily_menu_available
reports unavailability with no URL and a detail containing "not found". -/
theorem c7_link_search_strategies (soup : Node) (formFetch : FormFetch) :
    (find_daily_menu_link soup =
      match findLinkMethod1 soup with
      | some href => some href
      | none =>
        match findLinkMethod2 soup with
        | some href => some href
        | none => findLinkMethod3 soup)
    ∧ (∀ href, find_daily_menu_link soup = some href →
        strContains href formsDomain = true)
    ∧ (find_daily_menu_link soup = none →
        check_daily_menu_available (.ok soup) formFetch =
          ⟨false, none, some "Daily menu link not found on the page"⟩ ∧
        strContains "Daily menu link not found on the page" "not found" = true) := by
  refine ⟨rfl, ?_, ?_⟩
  · intro href h
    unfold find_daily_menu_link at h
    cases h1 : findLinkMethod1 soup with
    | some l =>
      rw [h1] at h
      cases h
      exact method1_domain soup _ h1
    | none =>
      rw [h1] at h
      cases h2 : findLinkMethod2 soup with
      | some l =>
        rw [h2] at h
        cases h
        exact method2_domain soup _ h2
      | none =>
        rw [h2] at h
        exact method3_domain soup _ h
  · intro hnone
    constructor
    · simp only [check_daily_menu_available]
      rw [hnone]
    · decide

/-- Entry page without any matching link. -/
def emptySoup : Node := .elem "[document]" [] []

/-- Entry page whose first anchor matches method 1. -/
def sampleSoup : Node :=
  .elem "[document]" []
    [.elem "div" [] [.text "Bienvenidos"],
     .elem "a" [("href", "https://docs.google.com/forms/d/e/abc/viewform")]
       [.text " Almuerzos del día "]]

/-- Witness for C7: a found link points into the forms domain, and the
empty page yields the not-found result. -/
theorem c7_link_search_strategies_witness :
    strContains "https://docs.google.com/forms/d/e/abc/viewform" formsDomain = true ∧
    check_daily_menu_available (.ok emptySoup) (.ok "u" "t") =
      ⟨false, none, some "Daily menu link not found on the page"⟩ :=
  ⟨(c7_link_search_strategies sampleSoup (.ok "u" "t")).2.1 _ (by decide),
   ((c7_link_search_strategies emptySoup (.ok "u" "t")).2.2 (by decide)).1⟩

/- ### Claim C4 -/

/-- C4: when the secondary fetch of the candidate form URL fails, the
resolver fails open: check_form_availability reports accepting with a
could-not-verify detail, and check_daily_menu_available reports the channel
available. -/
theorem c4_fail_open_on_fetch_error :
    (∀ e, check_form_availability (.err e) =
      ⟨true, "Could not verify form status: " ++ e⟩)
    ∧ (∀ soup link e, find_daily_menu_link soup = some link →
        check_daily_menu_available (.ok soup) (.err e) = ⟨true, some link, none⟩) := by
  constructor
  · intro e; rfl
  · intro soup link e hfind
    simp only [check_daily_menu_available]
    rw [hfind]
    rfl

/-- Witness for C4 at a page holding a matching link and a failing form
fetch. -/
theorem c4_fail_open_on_fetch_error_witness :
    check_daily_menu_available (.ok sampleSoup) (.err "timed out") =
      ⟨true, some "https://docs.google.com/forms/d/e/abc/viewform", none⟩ :=
  c4_fail_open_on_fetch_error.2 sampleSoup _ "timed out" (by decide)

/- ### Claim C5 -/

lemma find_first_at (p : String → Bool) (l : List String) (i : Nat)
    (hi : i < l.length) (hp : p (l.get ⟨i, hi⟩) = true)
    (hmin : ∀ j (hj : j < i), p (l.get ⟨j, Nat.lt_trans hj hi⟩) = false) :
    l.find? p = some (l.get ⟨i, hi⟩) := by
  induction l generalizing i with
  | nil => simp at hi
  | cons a t ih =>
    cases i with
    | zero =>
      simp only [List.get] at hp
      simp [List.find?, hp]
    | succ i =>
      have ha : p a = false := hmin 0 (Nat.succ_pos i)
      simp only [List.find?, ha]
      have hi2 : i < t.length := by
        have h3 := hi
        simp only [List.length_cons] at h3
        omega
      exact ih i hi2 hp (fun j hj => hmin (j + 1) (by omega))

/-- C5: sold-out detection is case-insensitive substring matching against
the fixed ordered phrase list; any page whose lowered text contains
"se han agotado" is classified not accepting, and when the scan runs the
first matching phrase in iteration order is reported verbatim in the
message. -/
theorem c5_sold_out_phrase_scan (url text : String) :
    (sold_out_phrases =
      ["agotados", "se han agotado", "no hay", "sin disponibilidad", "sold out"])
    ∧ (strContains (strLower text) "se han agotado" = true →
        (check_form_availability (.ok url text)).accepting_requests = false)
    ∧ (strContains url "/closedform" = false →
        ∀ i (hi : i < sold_out_phrases.length),
          strContains (strLower text) (sold_out_phrases.get ⟨i, hi⟩) = true →
          (∀ j (hj : j < i),
            strContains (strLower text) (sold_out_phrases.get ⟨j, Nat.lt_trans hj hi⟩) = false) →
          check_form_availability (.ok url text) =
            ⟨false, "Form shows sold out content: '" ++
              sold_out_phrases.get ⟨i, hi⟩ ++ "' found"⟩) := by
  refine ⟨rfl, ?_, ?_⟩
  · intro hcont
    simp only [check_form_availability]
    by_cases hc : strContains url "/closedform" = true
    · rw [if_pos hc]
    · rw [if_neg hc]
      cases hf : sold_out_phrases.find? (fun p => strContains (strLower text) p) with
      | some p => rfl
      | none =>
        exfalso
        have hall := List.find?_eq_none.mp hf "se han agotado" (by simp [sold_out_phrases])
        exact absurd hcont hall
  · intro hnc i hi hp hmin
    simp only [check_form_availability]
    rw [if_neg (by simp [hnc])]
    rw [find_first_at (fun p => strContains (strLower text) p) sold_out_phrases i hi hp hmin]

/-- Witness for C5: a mixed-casing "Se Han Agotado" page is classified not
accepting, and "se han agotado" is the first phrase that matches, reported
verbatim. -/
theorem c5_sold_out_phrase_scan_witness :
    (check_form_availability (.ok "https://docs.google.com/forms/d/e/x/viewform"
        "Lo sentimos, Se Han AGOTADO los almuerzos")).accepting_requests = false ∧
    check_form_availability (.ok "https://docs.google.com/forms/d/e/x/viewform"
        "Lo sentimos, Se Han AGOTADO los almuerzos") =
      ⟨false, "Form shows sold out content: '" ++
        sold_out_phrases.get ⟨1, by decide⟩ ++ "' found"⟩ := by
  constructor
  · exact (c5_sold_out_phrase_scan _ _).2.1 (by decide)
  · have hi : 1 < sold_out_phrases.length := by decide
    have hp : strContains (strLower "Lo sentimos, Se Han AGOTADO los almuerzos")
        (sold_out_phrases.get ⟨1, hi⟩) = true :=
      (by decide : strContains (strLower "Lo sentimos, Se Han AGOTADO los almuerzos")
        "se han agotado" = true)
    have hmin : ∀ j (hj : j < 1),
        strContains (strLower "Lo sentimos, Se Han AGOTADO los almuerzos")
          (sold_out_phrases.get ⟨j, Nat.lt_trans hj hi⟩) = false := by
      intro j hj
      have hj0 : j = 0 := by omega
      subst hj0
      exact (by decide : strContains (strLower "Lo sentimos, Se Han AGOTADO los almuerzos")
        "agotados" = false)
    exact (c5_sold_out_phrase_scan _ _).2.2 (by decide) 1 hi hp hmin

/- ### Scraper: scrap_menu_options.py -/

/-- Menu dictionary built by extract_menu_info. -/
structure MenuInfo where
  name : String
  full_text : String
  price : Option String
  image_url : Option String
deriving DecidableEq, Repr

/-- First successful extraction among the matching text elements of one
label, as the break-on-first-success loops of lines 38-55.  Each list entry
is the extract_menu_info result for one matching occurrence. -/
def firstInfo (elems : List (Option MenuInfo)) : Option MenuInfo :=
  elems.findSome? id

/-- Result dictionary of scrape_menu_options. -/
structure ScrapeResult where
  success : Bool
  menu1 : Option MenuInfo
  menu2 : Option MenuInfo
  error : Option String
deriving DecidableEq, Repr

/-- Embedding of the combination logic of scrape_menu_options
(scrap_menu_options.py lines 30-71), parametrized by the per-occurrence
extraction outcomes for the two labels. -/
def scrape_menu_options (m1elems m2elems : List (Option MenuInfo)) : ScrapeResult :=
  let m1 := firstInfo m1elems
  let m2 := firstInfo m2elems
  if m1.isSome && m2.isSome then ⟨true, m1, m2, none⟩
  else
    let missing := (if m1.isSome then [] else ["MENÚ 1"]) ++
      (if m2.isSome then [] else ["MENÚ 2"])
    ⟨false, m1, m2, some ("Could not find: " ++ String.intercalate ", " missing)⟩

/- ### Claim C6 -/

/-- C6: scrape_menu_options succeeds exactly when both MENÚ 1 and MENÚ 2
yielded an offering; a missing label, including the partial case with
exactly one found, produces a failure whose error names exactly the missing
label or labels. -/
theorem c6_missing_labels_reported (m1elems m2elems : List (Option MenuInfo)) :
    ((scrape_menu_options m1elems m2elems).success = true ↔
      (firstInfo m1elems).isSome = true ∧ (firstInfo m2elems).isSome = true)
    ∧ (firstInfo m1elems = none → (firstInfo m2elems).isSome = true →
        scrape_menu_options m1elems m2elems =
          ⟨false, none, firstInfo m2elems, some "Could not find: MENÚ 1"⟩)
    ∧ ((firstInfo m1elems).isSome = true → firstInfo m2elems = none →
        scrape_menu_options m1elems m2elems =
          ⟨false, firstInfo m1elems, none, some "Could not find: MENÚ 2"⟩)
    ∧ (firstInfo m1elems = none → firstInfo m2elems = none →
        scrape_menu_options m1elems m2elems =
          ⟨false, none, none, some "Could not find: MENÚ 1, MENÚ 2"⟩) := by
  refine ⟨?_, ?_, ?_, ?_⟩
  · unfold scrape_menu_options
    cases h1 : (firstInfo m1elems).isSome <;> cases h2 : (firstInfo m2elems).isSome <;>
      simp [h1, h2]
  · intro h1 h2
    unfold scrape_menu_options
    rw [h1]
    simp only [Option.isSome_none, Bool.false_and, if_false, h2]
    rfl
  · intro h1 h2
    unfold scrape_menu_options
    rw [h2]
    simp only [Option.isSome_none, Bool.and_false, if_false, h1]
    rfl
  · intro h1 h2
    unfold scrape_menu_options
    rw [h1, h2]
    rfl

/-- Offering extracted for MENÚ 2 in the witness scenario. -/
def sampleMenu2 : MenuInfo := ⟨"MENÚ 2", "MENÚ 2 $20.000", some "20.000", none⟩

/-- Witness for C6: MENÚ 1 missing and MENÚ 2 found is reported as a
failure naming exactly MENÚ 1. -/
theorem c6_missing_labels_reported_witness :
    scrape_menu_options [none] [some sampleMenu2] =
      ⟨false, none, some sampleMenu2, some "Could not find: MENÚ 1"⟩ :=
  (c6_missing_labels_reported [none] [some sampleMenu2]).2.1 rfl rfl

/- ### Submitter: fill_form.py -/

/-- Dropdown option as seen through the page locator: visibility and the
text returned by inner_text(). -/
structure OptionElem where
  visible : Bool
  inner_text : String
deriving DecidableEq, Repr

/-- Outcome of the quantity-selection loop: the index of the clicked option
together with the visible texts collected so far, or the requested quantity
with the full list of visible option texts observed. -/
inductive ClickOutcome where
  | clicked (idx : Nat) (seen : List String)
  | notFound (qty : Nat) (visible_options : List String)
deriving DecidableEq, Repr

/-- Loop body of click_menu_option (fill_form.py lines 81-91): walk all
options by index, collect the stripped text of each visible one, click the
first whose text equals str(menu_quantity) exactly. -/
def clickLoop (qty : Nat) : List OptionElem → Nat → List String → ClickOutcome
  | [], _, acc => .notFound qty acc
  | o :: rest, i, acc =>
    if o.visible = true then
      if strStrip o.inner_text = toString qty then
        .clicked i (acc ++ [strStrip o.inner_text])
      else clickLoop qty rest (i + 1) (acc ++ [strStrip o.inner_text])
    else clickLoop qty rest (i + 1) acc

/-- Embedding of click_menu_option (fill_form.py lines 77-97), parametrized
by the visible options enumerated from the opened dropdown. -/
def click_menu_option (options : List OptionElem) (menu_quantity : Nat) : ClickOutcome :=
  clickLoop menu_quantity options 0 []

lemma clickLoop_notFound (qty : Nat) (opts : List OptionElem) (i : Nat) (acc : List String)
    (h : ∀ o ∈ opts, o.visible = true → strStrip o.inner_text ≠ toString qty) :
    clickLoop qty opts i acc =
      .notFound qty (acc ++ (opts.filter (fun o => o.visible)).map
        (fun o => strStrip o.inner_text)) := by
  induction opts generalizing i acc with
  | nil => simp [clickLoop]
  | cons o rest ih =>
    unfold clickLoop
    by_cases hv : o.visible = true
    · rw [if_pos hv]
      have hne := h o (by simp) hv
      rw [if_neg hne]
      rw [ih (i + 1) (acc ++ [strStrip o.inner_text]) (fun o2 ho2 => h o2 (by simp [ho2]))]
      simp [hv, List.filter_cons]
    · rw [if_neg hv]
      rw [ih (i + 1) acc (fun o2 ho2 => h o2 (by simp [ho2]))]
      have hv2 : o.visible = false := by
        cases hb : o.visible
        · rfl
        · exact absurd hb hv
      simp [hv2, List.filter_cons]

lemma clickLoop_clicked (qty : Nat) (opts : List OptionElem) (i : Nat) (acc : List String)
    (idx : Nat) (seen : List String)
    (h : clickLoop qty opts i acc = .clicked idx seen) :
    ∃ o, opts[idx - i]? = some o ∧ i ≤ idx ∧ o.visible = true ∧
      strStrip o.inner_text = toString qty := by
  induction opts generalizing i acc with
  | nil => simp [clickLoop] at h
  | cons o rest ih =>
    unfold clickLoop at h
    by_cases hv : o.visible = true
    · rw [if_pos hv] at h
      by_cases he : strStrip o.inner_text = toString qty
      · rw [if_pos he] at h
        cases h
        exact ⟨o, by simp, by omega, hv, he⟩
      · rw [if_neg he] at h
        obtain ⟨o2, hget, hle, hvis, heq⟩ := ih (i + 1) (acc ++ [strStrip o.inner_text]) h
        refine ⟨o2, ?_, by omega, hvis, heq⟩
        have hsub : idx - i = (idx - (i + 1)) + 1 := by omega
        rw [hsub]
        simpa using hget
    · rw [if_neg hv] at h
      obtain ⟨o2, hget, hle, hvis, heq⟩ := ih (i + 1) acc h
      refine ⟨o2, ?_, by omega, hvis, heq⟩
      have hsub : idx - i = (idx - (i + 1)) + 1 := by omega
      rw [hsub]
      simpa using hget

/- ### Claim C3 -/

/-- C3: the quantity selection clicks an option only when its stripped
displayed text is exactly string-equal to str(menu_quantity), and when no
visible option matches exactly, the call fails and reports the requested
quantity together with the full list of visible option texts observed. -/
theorem c3_exact_quantity_selection (options : List OptionElem) (qty : Nat) :
    (∀ idx seen, click_menu_option options qty = .clicked idx seen →
      ∃ o, options[idx]? = some o ∧ o.visible = true ∧
        strStrip o.inner_text = toString qty)
    ∧ ((∀ o ∈ options, o.visible = true → strStrip o.inner_text ≠ toString qty) →
        click_menu_option options qty =
          .notFound qty ((options.filter (fun o => o.visible)).map
            (fun o => strStrip o.inner_text))) := by
  constructor
  · intro idx seen h
    obtain ⟨o, hget, _, hvis, heq⟩ := clickLoop_clicked qty options 0 [] idx seen h
    refine ⟨o, ?_, hvis, heq⟩
    simpa using hget
  · intro h
    have h2 := clickLoop_notFound qty options 0 [] h
    simpa using h2

/-- Witness for C3: with visible options Elegir, 1, 2, 10, requesting
quantity 1 clicks the exact "1" option (index 1, not the "10" option), and
requesting quantity 5 fails reporting the full visible list. -/
theorem c3_exact_quantity_selection_witness :
    (∃ o, ([⟨true, "Elegir"⟩, ⟨true, "1"⟩, ⟨true, "2"⟩, ⟨true, "10"⟩] :
        List OptionElem)[1]? = some o ∧ o.visible = true ∧
      strStrip o.inner_text = toString 1) ∧
    click_menu_option [⟨true, "Elegir"⟩, ⟨true, "1"⟩, ⟨true, "2"⟩, ⟨true, "10"⟩] 5 =
      .notFound 5 ["Elegir", "1", "2", "10"] := by
  constructor
  · exact (c3_exact_quantity_selection _ 1).1 1 ["Elegir", "1"] (by decide)
  · exact (c3_exact_quantity_selection
      [⟨true, "Elegir"⟩, ⟨true, "1"⟩, ⟨true, "2"⟩, ⟨true, "10"⟩] 5).2 (by decide)

/- ### fill_c7_form state machine -/

/-- Automation steps performed against the browser session. -/
inductive Step where
  | launch
  | navigate
  | waitTextInput
  | fillWhatsapp
  | waitListbox
  | openDropdown
  | clickOption
  | waitRadio
  | clickRadio
  | clickSubmit
  | closeBrowser
deriving DecidableEq, Repr

/-- Environment giving the outcome of each fallible browser interaction of
fill_c7_form, and the dropdown options enumerated for the two menus. -/
structure FillEnv where
  launch : Except String Unit
  navigate : Except String Unit
  waitTextInput : Except String Unit
  fillWhatsapp : Except String Unit
  waitListbox : Except String Unit
  openDropdown1 : Except String Unit
  openDropdown2 : Except String Unit
  options1 : List OptionElem
  options2 : List OptionElem
  clickOption : Except String Unit
  waitRadio : Except String Unit
  clickRadio : Except String Unit
  clickSubmit : Except String Unit

/-- State of the try-block body: the Python return value or the pending
exception, the print output so far, and the trace of attempted steps. -/
structure BodyOut where
  result : Except String Bool
  log : List String
  trace : List Step

/-- Run one fallible step: on success continue with the step recorded, on
an exception abort the body with the exception pending. -/
def stepK (s : Step) (r : Except String Unit) (log : List String) (tr : List Step)
    (k : List String → List Step → BodyOut) : BodyOut :=
  match r with
  | .ok _ => k log (tr ++ [s])
  | .error e => ⟨.error e, log, tr ++ [s]⟩

/-- Rendering of a Python list of strings inside an f-string. -/
def pyListRepr (xs : List String) : String :=
  "[" ++ String.intercalate ", " (xs.map fun s => "'" ++ s ++ "'") ++ "]"

/-- Form URL used when none is supplied (fill_form.py line 49). -/
def defaultFormUrl : String :=
  "https://docs.google.com/forms/d/e/1FAIpQLSfdFpl_ODddg00ERQu5-j0q3Mn7VCa8ScxOxJ-N-TPWL8kS-Q/viewform"

/-- Steps after the menu selection (fill_form.py lines 115-139): utensils
radio, submit, explicit browser.close() on the success path. -/
def submitSteps (env : FillEnv) (log : List String) (tr : List Step) : BodyOut :=
  stepK .waitRadio env.waitRadio (log ++ ["Selecting utensils: NO"]) tr fun log tr =>
  stepK .clickRadio env.clickRadio log tr fun log tr =>
  stepK .clickSubmit env.clickSubmit (log ++ ["Submitting form..."]) tr fun log tr =>
    ⟨.ok true, log ++ ["Form submitted successfully!"], tr ++ [.closeBrowser]⟩

/-- Menu-quantity selection inside the body: on a missing quantity the
diagnostic is printed and the body returns False early (lines 92-96), else
the matched option is clicked. -/
def menuSelect (env : FillEnv) (opts : List OptionElem) (qty : Nat) (label : String)
    (log : List String) (tr : List Step) : BodyOut :=
  match click_menu_option opts qty with
  | .notFound q vs =>
      ⟨.ok false,
       log ++ [label ++ " quantity option '" ++ toString q ++
         "' not found. Visible options: " ++ pyListRepr vs],
       tr⟩
  | .clicked _ _ =>
      stepK .clickOption env.clickOption log tr fun log tr =>
        submitSteps env log tr

/-- Body of the try block of fill_c7_form (fill_form.py lines 55-139):
launch, navigate, fill the contact field, select the chosen menu's quantity,
pick the NO radio, submit.  Print output is modelled in log. -/
def fillBody (env : FillEnv) (menu_choice menu_quantity : Nat)
    (form_url : Option String) : BodyOut :=
  stepK .launch env.launch [] [] fun log tr =>
  stepK .navigate env.navigate
    (log ++ ["Navigating to form: " ++ form_url.getD defaultFormUrl]) tr fun log tr =>
  stepK .waitTextInput env.waitTextInput log tr fun log tr =>
  stepK .fillWhatsapp env.fillWhatsapp (log ++ ["Filling WhatsApp number"]) tr fun log tr =>
  if menu_choice = 1 then
    stepK .waitListbox env.waitListbox
      (log ++ ["Selecting Menu 1 with quantity: " ++ toString menu_quantity]) tr fun log tr =>
    stepK .openDropdown env.openDropdown1 log tr fun log tr =>
      menuSelect env env.options1 menu_quantity "Menu 1" log tr
  else if menu_choice = 2 then
    stepK .waitListbox env.waitListbox
      (log ++ ["Selecting Menu 2 with quantity: " ++ toString menu_quantity]) tr fun log tr =>
    stepK .openDropdown env.openDropdown2 log tr fun log tr =>
      menuSelect env env.options2 menu_quantity "Menu 2" log tr
  else ⟨.ok false, log ++ ["Invalid menu choice. Must be 1 or 2"], tr⟩

/-- Observable outcome of fill_c7_form: the returned boolean, the print
output, and the trace of performed steps including session release. -/
structure FillResult where
  success : Bool
  log : List String
  trace : List Step

/-- Embedding of fill_c7_form (fill_form.py lines 33-148).  Leaving the
sync_playwright with-block stops the driver and thereby releases the
browser on every exit path, modelled by appending closeBrowser whenever a
session was launched and not already closed; the except clause prints the
error description and returns False. -/
def fill_c7_form (env : FillEnv) (menu_choice menu_quantity : Nat)
    (form_url : Option String) : FillResult :=
  let b := fillBody env menu_choice menu_quantity form_url
  let launched : Bool := match env.launch with | .ok _ => true | .error _ => false
  ⟨match b.result with | .ok s => s | .error _ => false,
   match b.result with
   | .ok _ => b.log
   | .error e => b.log ++ ["Error filling form: " ++ e],
   b.trace ++
     (if launched = true ∧ ¬ Step.closeBrowser ∈ b.trace then [Step.closeBrowser] else [])⟩

/-- Order in which the automation may attempt its steps, each at most
once. -/
def fullStepOrder : List Step :=
  [.launch, .navigate, .waitTextInput, .fillWhatsapp, .waitListbox, .openDropdown,
   .clickOption, .waitRadio, .clickRadio, .clickSubmit, .closeBrowser]

lemma fillBody_trace_sub (env : FillEnv) (mc mq : Nat) (fu : Option String) :
    (fillBody env mc mq fu).trace.Sublist fullStepOrder := by
  unfold fillBody menuSelect submitSteps
  unfold stepK
  repeat' (first | split | dsimp only)
  all_goals decide

/- ### Claim C8 -/

/-- C8: fill_c7_form is a total function of the step outcomes (no exception
escapes to the caller); whenever a browser session was launched the trace
contains its release, on every exit path; a pending exception turns into a
False return whose print output carries the error's description; and no
step is attempted twice (no internal retry). -/
theorem c8_exception_containment (env : FillEnv) (mc mq : Nat) (fu : Option String) :
    (env.launch = .ok () → Step.closeBrowser ∈ (fill_c7_form env mc mq fu).trace)
    ∧ (∀ e, (fillBody env mc mq fu).result = .error e →
        (fill_c7_form env mc mq fu).success = false ∧
        ("Error filling form: " ++ e) ∈ (fill_c7_form env mc mq fu).log)
    ∧ (fill_c7_form env mc mq fu).trace.Nodup := by
  have hsub := fillBody_trace_sub env mc mq fu
  have hnodup : (fillBody env mc mq fu).trace.Nodup := hsub.nodup (by decide)
  refine ⟨?_, ?_, ?_⟩
  · intro hl
    have hlaunched : (match env.launch with
        | Except.ok _ => true | Except.error _ => false) = true := by rw [hl]
    simp only [fill_c7_form]
    by_cases hmem : Step.closeBrowser ∈ (fillBody env mc mq fu).trace
    · simp [hmem]
    · simp [hmem, hlaunched]
  · intro e he
    simp only [fill_c7_form]
    rw [he]
    exact ⟨rfl, by simp⟩
  · simp only [fill_c7_form]
    by_cases hmem : Step.closeBrowser ∈ (fillBody env mc mq fu).trace
    · simp [hmem, hnodup]
    · split_ifs <;> simp [List.nodup_append, hnodup, hmem]

/-- Environment of the C8 witness: the navigation step raises. -/
def envNavFail : FillEnv :=
  ⟨.ok (), .error "net down", .ok (), .ok (), .ok (), .ok (), .ok (),
   [⟨true, "1"⟩], [⟨true, "1"⟩], .ok (), .ok (), .ok (), .ok ()⟩

/-- Witness for C8 at a run whose navigation fails: the session is
released, the call returns failure carrying the error description, and no
step ran twice. -/
theorem c8_exception_containment_witness :
    Step.closeBrowser ∈ (fill_c7_form envNavFail 1 1 none).trace ∧
    (fill_c7_form envNavFail 1 1 none).success = false ∧
    ("Error filling form: " ++ "net down") ∈ (fill_c7_form envNavFail 1 1 none).log ∧
    (fill_c7_form envNavFail 1 1 none).trace.Nodup := by
  obtain ⟨h1, h2, h3⟩ := c8_exception_containment envNavFail 1 1 none
  exact ⟨h1 rfl, (h2 "net down" rfl).1, (h2 "net down" rfl).2, h3⟩

end Taurien
